import Mathlib

/-!
Shallow embedding of parts of the `telemedicine` repository (actix-web fork):
  * `src/actix-http/src/h1/service.rs` — H1 service factory, init future, handler;
  * `src/awc/src/connect.rs` — default connector and its request future;
  * `src/src/http/header/macros.rs` — the `common_header!` macro's `Any` form.
Rust futures are modelled as scripted poll sequences, services as abstract
values, and `Poll<Result<..>>` as explicit inductive results.
-/

namespace H1Service

/-- Outcome of one `poll_ready` invocation on a sub-service, as seen by the
`H1ServiceHandler`: `Poll::Pending`, `Poll::Ready(Ok(()))`, or
`Poll::Ready(Err(e))` with error type `ε`. -/
inductive SvcPoll (ε : Type) where
  | pending
  | ready
  | error (e : ε)
deriving DecidableEq, Repr

/-- The `DispatchError` restricted to the variant this file needs:
`DispatchError::Service(e)` wraps a sub-service error. -/
inductive DispatchError (ε : Type) where
  | Service (e : ε)
deriving DecidableEq, Repr

/-- Result of `H1ServiceHandler::poll_ready`: `Pending`, `Ready(Ok(()))`, or
`Ready(Err(d))`. -/
inductive PollReadyResult (ε : Type) where
  | pending
  | readyOk
  | readyErr (d : DispatchError ε)
deriving DecidableEq, Repr

/-- The `poll_ready(cx).map_err(..)?` on one sub-service: an `Err` propagates (after
conversion), otherwise the `Bool` is the Rust `is_ready()` of the poll. -/
def subCheck {ε : Type} (p : SvcPoll ε) : Except ε Bool :=
  match p with
  | .pending => .ok false
  | .ready => .ok true
  | .error e => .error e

/-- The `H1ServiceHandler::poll_ready` (src/actix-http/src/h1/service.rs:420-460).
Polls `expect`, then `srv`, then (when configured) `upgrade`, conjoining
`is_ready()` results; an error from any sub-service is logged and returned as
`DispatchError::Service`. The second component is the list of errors passed to
`log::error!`, in order. -/
def pollReady {ε : Type} (expect srv : SvcPoll ε) (upgrade : Option (SvcPoll ε)) :
    PollReadyResult ε × List ε := Id.run do
  let mut logs : List ε := []
  let ready ←
    match subCheck expect with
    | .error e => do
        logs := logs ++ [e]
        return (.readyErr (DispatchError.Service e), logs)
    | .ok b => pure b
  let ready ←
    match subCheck srv with
    | .error e => do
        logs := logs ++ [e]
        return (.readyErr (DispatchError.Service e), logs)
    | .ok b => pure (b && ready)
  let ready ←
    match upgrade with
    | some upg =>
      match subCheck upg with
      | .error e => do
          logs := logs ++ [e]
          return (.readyErr (DispatchError.Service e), logs)
      | .ok b => pure (b && ready)
    | none => pure ready
  if ready then
    return (.readyOk, logs)
  else
    return (.pending, logs)

/-- The first sub-service readiness error, in the poll order of
`poll_ready` (expect, then srv, then upgrade). -/
def firstErr {ε : Type} (expect srv : SvcPoll ε) (upgrade : Option (SvcPoll ε)) :
    Option ε :=
  match expect with
  | .error e => some e
  | _ =>
    match srv with
    | .error e => some e
    | _ =>
      match upgrade with
      | some (.error e) => some e
      | _ => none

end H1Service

namespace H1Service

/-- C2 helper: a sub-service poll result is error-free. -/
def SvcPoll.noErr {ε : Type} : SvcPoll ε → Prop
  | .error _ => False
  | _ => True

instance {ε : Type} (p : SvcPoll ε) : Decidable p.noErr := by
  cases p <;> simp [SvcPoll.noErr] <;> infer_instance

end H1Service

/-- C2: when no sub-service errors, `H1ServiceHandler::poll_ready` returns
`Ready(Ok(()))` iff the expect service, the application service, and (when
configured) the upgrade service all report ready; otherwise it returns
`Pending`. -/
theorem pollReady_ready_iff_all_ready {ε : Type} (expect srv : H1Service.SvcPoll ε)
    (upgrade : Option (H1Service.SvcPoll ε))
    (hx : expect.noErr) (hs : srv.noErr) (hu : ∀ u ∈ upgrade, u.noErr) :
    ((H1Service.pollReady expect srv upgrade).1 = .readyOk ↔
      (expect = .ready ∧ srv = .ready ∧ ∀ u ∈ upgrade, u = .ready)) ∧
    ((H1Service.pollReady expect srv upgrade).1 ≠ .readyOk →
      (H1Service.pollReady expect srv upgrade).1 = .pending) := by
  cases expect <;> cases srv <;> simp [H1Service.SvcPoll.noErr] at hx hs <;>
    first
    | (cases upgrade with
       | none => simp [H1Service.pollReady, H1Service.subCheck, Id.run]
       | some u =>
          cases u with
          | error e => exact absurd (hu _ rfl) (by simp [H1Service.SvcPoll.noErr])
          | pending => simp [H1Service.pollReady, H1Service.subCheck, Id.run]
          | ready => simp [H1Service.pollReady, H1Service.subCheck, Id.run])

/-- C2 witness: with all three sub-services ready, `poll_ready` reports
`Ready(Ok(()))`; instantiated at a concrete state. -/
theorem pollReady_ready_iff_all_ready_witness :
    (H1Service.pollReady (ε := Unit) .ready .ready (some .ready)).1 = .readyOk := by
  have h := pollReady_ready_iff_all_ready (ε := Unit) .ready .ready (some .ready)
    (by simp [H1Service.SvcPoll.noErr])
    (by simp [H1Service.SvcPoll.noErr])
    (by intro u hu; cases hu; simp [H1Service.SvcPoll.noErr])
  exact h.1.mpr ⟨rfl, rfl, by intro u hu; cases hu; rfl⟩

/-- C3: whenever a sub-service's readiness poll errors, `poll_ready` returns
the first such error (in poll order) wrapped as `DispatchError::Service` and
logs exactly it; in particular the result is never `Ready(Ok(()))`, so no
connection is accepted through that readiness poll. -/
theorem pollReady_error_fatal {ε : Type} (expect srv : H1Service.SvcPoll ε)
    (upgrade : Option (H1Service.SvcPoll ε)) (e : ε)
    (h : H1Service.firstErr expect srv upgrade = some e) :
    H1Service.pollReady expect srv upgrade =
      (.readyErr (H1Service.DispatchError.Service e), [e]) := by
  cases expect with
  | error e0 =>
    simp [H1Service.firstErr] at h
    subst h
    simp [H1Service.pollReady, H1Service.subCheck, Id.run]
  | pending =>
    cases srv with
    | error e0 =>
      simp [H1Service.firstErr] at h
      subst h
      simp [H1Service.pollReady, H1Service.subCheck, Id.run]
    | pending =>
      match upgrade with
      | some (.error e0) =>
        simp [H1Service.firstErr] at h
        subst h
        simp [H1Service.pollReady, H1Service.subCheck, Id.run]
      | some .pending => simp [H1Service.firstErr] at h
      | some .ready => simp [H1Service.firstErr] at h
      | none => simp [H1Service.firstErr] at h
    | ready =>
      match upgrade with
      | some (.error e0) =>
        simp [H1Service.firstErr] at h
        subst h
        simp [H1Service.pollReady, H1Service.subCheck, Id.run]
      | some .pending => simp [H1Service.firstErr] at h
      | some .ready => simp [H1Service.firstErr] at h
      | none => simp [H1Service.firstErr] at h
  | ready =>
    cases srv with
    | error e0 =>
      simp [H1Service.firstErr] at h
      subst h
      simp [H1Service.pollReady, H1Service.subCheck, Id.run]
    | pending =>
      match upgrade with
      | some (.error e0) =>
        simp [H1Service.firstErr] at h
        subst h
        simp [H1Service.pollReady, H1Service.subCheck, Id.run]
      | some .pending => simp [H1Service.firstErr] at h
      | some .ready => simp [H1Service.firstErr] at h
      | none => simp [H1Service.firstErr] at h
    | ready =>
      match upgrade with
      | some (.error e0) =>
        simp [H1Service.firstErr] at h
        subst h
        simp [H1Service.pollReady, H1Service.subCheck, Id.run]
      | some .pending => simp [H1Service.firstErr] at h
      | some .ready => simp [H1Service.firstErr] at h
      | none => simp [H1Service.firstErr] at h

/-- C3 witness: an application-service readiness error is returned as
`DispatchError::Service` and logged, at a concrete state. -/
theorem pollReady_error_fatal_witness :
    H1Service.pollReady (ε := Nat) .ready (.error 7) (some .ready) =
      (.readyErr (H1Service.DispatchError.Service 7), [7]) :=
  pollReady_error_fatal .ready (.error 7) (some .ready) 7 rfl

namespace H1Service

/-- Final value of a service-factory future: the constructed service, or an
init error. -/
inductive FacOut (σ : Type) where
  | ok (s : σ)
  | err
deriving DecidableEq, Repr

/-- A service-factory future (`S::Future`, `X::Future`, `U::Future`) modelled
as: a number of `Pending` polls, then `result`. `done` records that the future
has completed, and `repolls` counts polls made after completion — the Rust
futures contract forbids any such poll, so the model only counts them. -/
structure FacFut (σ : Type) where
  pends : Nat
  result : FacOut σ
  done : Bool
  repolls : Nat
deriving DecidableEq, Repr

/-- One poll result of a factory future. -/
inductive FacPoll (σ : Type) where
  | pending
  | ok (s : σ)
  | err
deriving DecidableEq, Repr

/-- Poll a factory future: pending `pends` times, then its result. Polling a
completed future replays its result and bumps `repolls`. -/
def pollFac {σ : Type} (f : FacFut σ) : FacPoll σ × FacFut σ :=
  if f.done then
    (match f.result with
     | .ok s => .ok s
     | .err => .err,
     { f with repolls := f.repolls + 1 })
  else
    match f.pends with
    | n + 1 => (.pending, { f with pends := n })
    | 0 =>
      (match f.result with
       | .ok s => .ok s
       | .err => .err,
       { f with done := true })

/-- The per-connection extensions bag (`Extensions`), modelled as a list of
(type-id, value) entries; `Extensions::new()` is the empty bag. -/
structure Extensions where
  entries : List (Nat × Nat)
deriving DecidableEq, Repr

/-- The `Extensions::new()`: a fresh, empty bag. -/
def Extensions.new : Extensions := ⟨[]⟩

/-- The `on_connect_ext` callback `Rc<ConnectCallback<T>>`, a
`Fn(&T, &mut Extensions)`: modelled as a pure transformer of the bag that may
read the raw stream. -/
def ConnectCallback (τ : Type) : Type := τ → Extensions → Extensions

/-- The `CloneableService` wraps a service in a shared cloneable handle; cloning
yields a handle to the same underlying service. In the model a handle is the
service value itself and `clone` is the identity, so equality of handles
states sharing of the underlying service. -/
@[reducible]
def CloneableService (σ : Type) : Type := σ

/-- The `CloneableService::new`. -/
def CloneableService.new {σ : Type} (s : σ) : CloneableService σ := s

/-- The `H1ServiceHandler` (src/actix-http/src/h1/service.rs:365-372): handles to
the application, expect and optional upgrade services, the optional
`on_connect_ext` callback and the shared `ServiceConfig` `γ`. `τ` is the
stream type. -/
structure H1ServiceHandler (τ γ ξ υ σ : Type) where
  srv : CloneableService σ
  expect : CloneableService ξ
  upgrade : Option (CloneableService υ)
  on_connect_ext : Option (ConnectCallback τ)
  cfg : γ

/-- The `H1ServiceHandler::new` (src/actix-http/src/h1/service.rs:385-400). -/
def H1ServiceHandler.new {τ γ ξ υ σ : Type} (cfg : γ) (srv : σ) (expect : ξ)
    (upgrade : Option υ) (on_connect_ext : Option (ConnectCallback τ)) :
    H1ServiceHandler τ γ ξ υ σ :=
  { srv := CloneableService.new srv
    expect := CloneableService.new expect
    upgrade := upgrade.map CloneableService.new
    on_connect_ext := on_connect_ext
    cfg := cfg }

/-- State of `H1ServiceResponse` (src/actix-http/src/h1/service.rs:282-305):
`fut` drives the application-service factory, `fut_ex`/`fut_upg` the expect and
upgrade factories, and `expect`/`upgrade`/`cfg` are the slots consumed when the
handler is built. `γ` is the `ServiceConfig`, `ξ`/`υ`/`σ` the expect, upgrade
and application service types. -/
structure H1ServiceResponse (τ γ ξ υ σ : Type) where
  fut : FacFut σ
  fut_ex : Option (FacFut ξ)
  fut_upg : Option (FacFut υ)
  expect : Option ξ
  upgrade : Option υ
  on_connect_ext : Option (ConnectCallback τ)
  cfg : Option γ

/-- Output of one poll of the init future: `Pending`, `Ready(Err(()))`,
`Ready(Ok(handler))`, or a panic (an `unwrap` of a `None` slot). -/
inductive InitPoll (τ γ ξ υ σ : Type) where
  | pending
  | initErr
  | readyHandler (h : H1ServiceHandler τ γ ξ υ σ)
  | panicked

/-- The `H1ServiceResponse::poll` (src/actix-http/src/h1/service.rs:324-361).
Mirrors the source exactly: the expect factory future is polled first and on
completion its slot is filled and `fut_ex` cleared; the upgrade factory future
is polled next and on completion its slot is filled but the code clears
`fut_ex` again (line 342) — `fut_upg` is left in place; finally the
application factory future is polled and on success the handler is built from
the taken slots. -/
def pollH1SR {τ γ ξ υ σ : Type} (s : H1ServiceResponse τ γ ξ υ σ) :
    InitPoll τ γ ξ υ σ × H1ServiceResponse τ γ ξ υ σ := Id.run do
  let mut s := s
  match s.fut_ex with
  | some f =>
    let (r, f') := pollFac f
    match r with
    | .pending => return (.pending, { s with fut_ex := some f' })
    | .err => return (.initErr, { s with fut_ex := some f' })
    | .ok x => s := { s with expect := some x, fut_ex := none }
  | none => pure ()
  match s.fut_upg with
  | some f =>
    let (r, f') := pollFac f
    match r with
    | .pending => return (.pending, { s with fut_upg := some f' })
    | .err => return (.initErr, { s with fut_upg := some f' })
    | .ok u =>
      -- faithful to the source: `*this.upgrade = Some(upgrade);
      -- this.fut_ex.set(None);` — `fut_upg` is NOT cleared
      s := { s with upgrade := some u, fut_upg := some f', fut_ex := none }
  | none => pure ()
  let (r, f') := pollFac s.fut
  match r with
  | .pending => return (.pending, { s with fut := f' })
  | .err => return (.initErr, { s with fut := f' })
  | .ok svc =>
    match s.cfg, s.expect with
    | some c, some x =>
      return (.readyHandler
          (H1ServiceHandler.new c svc x s.upgrade s.on_connect_ext),
        { s with fut := f', cfg := none, expect := none, upgrade := none })
    | _, _ => return (.panicked, { s with fut := f' })

/-- The `H1Service::new_service` (src/actix-http/src/h1/service.rs:266-277):
initial init-future state built from the three factory futures. -/
def newService {τ γ ξ υ σ : Type} (cfg : γ) (fut : FacFut σ) (fut_ex : FacFut ξ)
    (fut_upg : Option (FacFut υ)) (on_connect_ext : Option (ConnectCallback τ)) :
    H1ServiceResponse τ γ ξ υ σ :=
  { fut := fut
    fut_ex := some fut_ex
    fut_upg := fut_upg
    expect := none
    upgrade := none
    on_connect_ext := on_connect_ext
    cfg := some cfg }

/-- A factory future that completes on its first poll with service `s`. -/
def immedFac {σ : Type} (s : σ) : FacFut σ :=
  { pends := 0, result := .ok s, done := false, repolls := 0 }

/-- A factory future that is pending on its first poll and completes on the
second with service `s`. -/
def slowFac {σ : Type} (s : σ) : FacFut σ :=
  { pends := 1, result := .ok s, done := false, repolls := 0 }

end H1Service

/-- C1 (refuting theorem): the claim says each sub-service factory future is
polled only until it first completes and never again; but when the expect and
upgrade factories complete on the first poll while the application factory is
still pending, the second poll of `H1ServiceResponse` polls the already
completed upgrade factory future again (its `repolls` count becomes 1),
because line 342 clears `fut_ex` instead of `fut_upg`. -/
theorem h1ServiceResponse_repolls_completed_upgrade_future :
    (((H1Service.pollH1SR
        (H1Service.pollH1SR
          (H1Service.newService (τ := Unit) (γ := Unit) (ξ := Unit) (υ := Unit)
            (σ := Unit) () (H1Service.slowFac ()) (H1Service.immedFac ())
            (some (H1Service.immedFac ())) none)).2).2.fut_upg.map
        H1Service.FacFut.repolls) = some 1) ∧
    ((H1Service.pollH1SR
        (H1Service.newService (τ := Unit) (γ := Unit) (ξ := Unit) (υ := Unit)
          (σ := Unit) () (H1Service.slowFac ()) (H1Service.immedFac ())
          (some (H1Service.immedFac ())) none)).2.fut_upg.map
        (fun f => f.done) = some true) := by
  constructor <;> rfl

namespace H1Service

/-- Modelled from the spec: `Dispatcher::new` lives in
src/actix-http/src/h1/dispatcher.rs, which is not part of the provided
sources. Per the spec the ServiceHandler "constructs a Dispatcher initialized
with cloneable references to the three services and a shared server
configuration" together with the stream, the connect-extensions bag and the
optional peer address; construction performs no I/O. The model is therefore a
record of exactly those arguments. `α` is the peer-address type. -/
structure Dispatcher (τ α γ ξ υ σ : Type) where
  io : τ
  cfg : γ
  srv : CloneableService σ
  expect : CloneableService ξ
  upgrade : Option (CloneableService υ)
  connect_extensions : Extensions
  peer_addr : Option α

/-- Modelled from the spec: `Dispatcher::new` as a pure constructor of the
record above, in the argument order of the call site. -/
def Dispatcher.new {τ α γ ξ υ σ : Type} (io : τ) (cfg : γ)
    (srv : CloneableService σ) (expect : CloneableService ξ)
    (upgrade : Option (CloneableService υ)) (connect_extensions : Extensions)
    (addr : Option α) : Dispatcher τ α γ ξ υ σ :=
  { io := io
    cfg := cfg
    srv := srv
    expect := expect
    upgrade := upgrade
    connect_extensions := connect_extensions
    peer_addr := addr }

/-- The `H1ServiceHandler::call` (src/actix-http/src/h1/service.rs:462-478): on an
accepted `(io, addr)` pair, create a fresh extensions bag, run the
`on_connect_ext` callback on it when configured, and construct the Dispatcher
from clones of the handler's handles. Besides the Dispatcher, the model
returns the handler's post-call state (the source takes `&mut self` but
assigns no field) and the number of callback invocations performed. -/
def H1ServiceHandler.call {τ α γ ξ υ σ : Type} (h : H1ServiceHandler τ γ ξ υ σ)
    (io : τ) (addr : Option α) :
    Dispatcher τ α γ ξ υ σ × H1ServiceHandler τ γ ξ υ σ × Nat :=
  let connect_extensions := Extensions.new
  match h.on_connect_ext with
  | some handler =>
    let connect_extensions := handler io connect_extensions
    (Dispatcher.new io h.cfg h.srv h.expect h.upgrade connect_extensions addr,
      h, 1)
  | none =>
    (Dispatcher.new io h.cfg h.srv h.expect h.upgrade connect_extensions addr,
      h, 0)

/-- Handler together with its readiness-observation history: `readyObserved`
records whether some `poll_ready` invocation has returned `Ready(Ok(()))`. -/
structure HandlerHist (τ γ ξ υ σ : Type) where
  handler : H1ServiceHandler τ γ ξ υ σ
  readyObserved : Bool

/-- A handler on which `poll_ready` has never been observed ready. -/
def freshHist {τ γ ξ υ σ : Type} (h : H1ServiceHandler τ γ ξ υ σ) :
    HandlerHist τ γ ξ υ σ :=
  { handler := h, readyObserved := false }

/-- One `poll_ready` observation on the handler, given the current sub-service
poll results; records whether readiness was observed. -/
def histPollReady {τ γ ξ υ σ ε : Type} [DecidableEq ε] (hh : HandlerHist τ γ ξ υ σ)
    (expect srv : SvcPoll ε) (upgrade : Option (SvcPoll ε)) :
    PollReadyResult ε × HandlerHist τ γ ξ υ σ :=
  let r := (pollReady expect srv upgrade).1
  (r, { hh with readyObserved :=
          hh.readyObserved || decide (r = PollReadyResult.readyOk) })

/-- The `call` through the history wrapper: the source places no readiness guard
in `call`, so it is available in every history state. -/
def histCall {τ α γ ξ υ σ : Type} (hh : HandlerHist τ γ ξ υ σ) (io : τ)
    (addr : Option α) :
    Dispatcher τ α γ ξ υ σ × HandlerHist τ γ ξ υ σ × Nat :=
  let (d, h', n) := hh.handler.call io addr
  (d, { hh with handler := h' }, n)

end H1Service

/-- C4: `H1ServiceHandler::call` starts from a fresh empty extensions bag;
when an `on_connect_ext` callback is configured it is invoked exactly once,
on the raw stream and that empty bag, and the resulting bag is what the
Dispatcher receives; with no callback configured there are zero invocations
and the bag stays empty; the stream reaches the Dispatcher unread and
unchanged. -/
theorem call_runs_on_connect_ext_once_then_dispatches {τ α γ ξ υ σ : Type}
    (h : H1Service.H1ServiceHandler τ γ ξ υ σ) (io : τ) (addr : Option α) :
    (h.on_connect_ext = none →
      (h.call io addr).2.2 = 0 ∧
      (h.call (α := α) io addr).1.connect_extensions = H1Service.Extensions.new) ∧
    (∀ f, h.on_connect_ext = some f →
      (h.call io addr).2.2 = 1 ∧
      (h.call (α := α) io addr).1.connect_extensions =
        f io H1Service.Extensions.new) ∧
    (h.call (α := α) io addr).1.io = io := by
  refine ⟨?_, ?_, ?_⟩
  · intro hn
    simp [H1Service.H1ServiceHandler.call, hn, H1Service.Dispatcher.new]
  · intro f hf
    simp [H1Service.H1ServiceHandler.call, hf, H1Service.Dispatcher.new]
  · cases hoc : h.on_connect_ext <;>
      simp [H1Service.H1ServiceHandler.call, hoc, H1Service.Dispatcher.new]

/-- C4 witness: at a concrete handler whose callback stamps one entry, `call`
invokes the callback once and the Dispatcher's bag is the stamped bag. -/
theorem call_runs_on_connect_ext_once_then_dispatches_witness :
    ((H1Service.H1ServiceHandler.new (τ := Nat) (γ := Nat) (ξ := Nat) (υ := Nat)
        (σ := Nat) 0 3 4 (some 5)
        (some fun io ext => ⟨(io, io) :: ext.entries⟩)).call (α := Nat) 9
        none).2.2 = 1 ∧
    ((H1Service.H1ServiceHandler.new (τ := Nat) (γ := Nat) (ξ := Nat) (υ := Nat)
        (σ := Nat) 0 3 4 (some 5)
        (some fun io ext => ⟨(io, io) :: ext.entries⟩)).call (α := Nat) 9
        none).1.connect_extensions = ⟨[(9, 9)]⟩ := by
  have h := call_runs_on_connect_ext_once_then_dispatches
    (H1Service.H1ServiceHandler.new (τ := Nat) (γ := Nat) (ξ := Nat) (υ := Nat)
      (σ := Nat) 0 3 4 (some 5)
      (some fun io ext => ⟨(io, io) :: ext.entries⟩)) 9 (none : Option Nat)
  have h2 := (h.2.1 (fun io ext => ⟨(io, io) :: ext.entries⟩) rfl)
  exact ⟨h2.1, h2.2⟩

/-- C5 (counterexample): on a freshly built handler whose readiness has never
been observed (`readyObserved = false`), `call` nevertheless constructs a
Dispatcher — the code contains no guard, contradicting the claim that `call`
never produces a Dispatcher for a handler whose sub-services were never
observed ready. -/
theorem histCall_dispatches_without_ready_observation :
    (H1Service.freshHist (H1Service.H1ServiceHandler.new (τ := Nat) (γ := Nat)
        (ξ := Nat) (υ := Nat) (σ := Nat) 0 3 4 none none)).readyObserved
      = false ∧
    (H1Service.histCall (α := Nat)
        (H1Service.freshHist (H1Service.H1ServiceHandler.new (τ := Nat)
          (γ := Nat) (ξ := Nat) (υ := Nat) (σ := Nat) 0 3 4 none none))
        9 none).1 =
      H1Service.Dispatcher.new 9 0 3 4 none H1Service.Extensions.new none := by
  exact ⟨rfl, rfl⟩

/-- C5 (amended): `H1ServiceHandler::call` enforces no readiness precondition:
in every history state — in particular one where the sub-services were never
observed ready — it constructs the Dispatcher from the stream, the handler's
handles and the (possibly callback-stamped) extensions bag. Observing
readiness first is an obligation on the caller, not checked by the handler. -/
theorem histCall_unconditional {τ α γ ξ υ σ : Type}
    (hh : H1Service.HandlerHist τ γ ξ υ σ) (io : τ) (addr : Option α)
    (h : hh.readyObserved = false) :
    (H1Service.histCall hh io addr).1.io = io ∧
    (H1Service.histCall hh io addr).1.cfg = hh.handler.cfg ∧
    (H1Service.histCall hh io addr).1.srv = hh.handler.srv ∧
    (H1Service.histCall hh io addr).2.1.readyObserved = false := by
  cases hoc : hh.handler.on_connect_ext <;>
    simp [H1Service.histCall, H1Service.H1ServiceHandler.call, hoc,
      H1Service.Dispatcher.new, h]

/-- C5 witness: the amended theorem applied at a concrete never-observed
handler. -/
theorem histCall_unconditional_witness :
    (H1Service.histCall (α := Nat)
        (H1Service.freshHist (H1Service.H1ServiceHandler.new (τ := Nat)
          (γ := Nat) (ξ := Nat) (υ := Nat) (σ := Nat) 2 3 4 none none))
        9 none).1.io = 9 :=
  (histCall_unconditional
    (H1Service.freshHist (H1Service.H1ServiceHandler.new (τ := Nat) (γ := Nat)
      (ξ := Nat) (υ := Nat) (σ := Nat) 2 3 4 none none)) 9 none rfl).1

/-- C6: the Dispatcher built by `call` holds the handler's own (shared) config
and service handles; `call` leaves every handler field unchanged; hence a
second accept on the same handler yields a Dispatcher with the very same
config and service handles. -/
theorem call_shares_handles_and_preserves_handler {τ α γ ξ υ σ : Type}
    (h : H1Service.H1ServiceHandler τ γ ξ υ σ) (io io2 : τ)
    (addr addr2 : Option α) :
    (h.call (α := α) io addr).1.cfg = h.cfg ∧
    (h.call (α := α) io addr).1.srv = h.srv ∧
    (h.call (α := α) io addr).1.expect = h.expect ∧
    (h.call (α := α) io addr).1.upgrade = h.upgrade ∧
    (h.call (α := α) io addr).2.1 = h ∧
    ((h.call (α := α) io addr).2.1.call (α := α) io2 addr2).1.cfg = h.cfg ∧
    ((h.call (α := α) io addr).2.1.call (α := α) io2 addr2).1.srv = h.srv ∧
    ((h.call (α := α) io addr).2.1.call (α := α) io2 addr2).1.expect = h.expect ∧
    ((h.call (α := α) io addr).2.1.call (α := α) io2 addr2).1.upgrade = h.upgrade := by
  cases hoc : h.on_connect_ext <;>
    simp [H1Service.H1ServiceHandler.call, hoc, H1Service.Dispatcher.new]

namespace H1Service

/-- A `TcpStream` for the purposes of `H1Service::tcp`: all the code uses is
`peer_addr()`, an `io::Result<SocketAddr>` (`α` is the address type, `Unit`
stands for the I/O error). -/
structure TcpStream (α : Type) where
  peerAddrResult : Except Unit α

/-- The `TcpStream::peer_addr`. -/
def TcpStream.peer_addr {α : Type} (io : TcpStream α) : Except Unit α :=
  io.peerAddrResult

/-- The pairing stage of `H1Service::tcp`
(src/actix-http/src/h1/service.rs:88-91): the closure
`|io| ... let peer_addr = io.peer_addr().ok(); ready(Ok((io, peer_addr))) ...`. -/
def tcpPair {α : Type} (io : TcpStream α) :
    Except Unit (TcpStream α × Option α) :=
  let peer_addr := io.peer_addr.toOption
  .ok (io, peer_addr)

end H1Service

/-- C7: the `H1Service::tcp` pairing stage never fails: it always yields
`Ok((stream, addr?))`, where the peer address is `some a` when `peer_addr()`
succeeds with `a` and `none` when `peer_addr()` errors — a failing
`peer_addr()` does not reject the connection. -/
theorem tcp_pairs_stream_with_optional_peer_addr {α : Type}
    (io : H1Service.TcpStream α) :
    (∃ p, H1Service.tcpPair io = .ok (io, p)) ∧
    (∀ a, io.peer_addr = .ok a → H1Service.tcpPair io = .ok (io, some a)) ∧
    (∀ e, io.peer_addr = .error e → H1Service.tcpPair io = .ok (io, none)) := by
  refine ⟨⟨io.peer_addr.toOption, rfl⟩, ?_, ?_⟩
  · intro a ha
    simp [H1Service.tcpPair, H1Service.TcpStream.peer_addr] at ha ⊢
    simp [ha, Except.toOption]
  · intro e he
    simp [H1Service.tcpPair, H1Service.TcpStream.peer_addr] at he ⊢
    simp [he, Except.toOption]

/-- C7 witness: a stream whose `peer_addr()` fails is still accepted, paired
with `none`. -/
theorem tcp_pairs_stream_with_optional_peer_addr_witness :
    H1Service.tcpPair (α := Nat) ⟨.error ()⟩ = .ok (⟨.error ()⟩, none) :=
  (tcp_pairs_stream_with_optional_peer_addr (α := Nat) ⟨.error ()⟩).2.2 () rfl

namespace Awc

/-- A future modelled as a script of poll results: each poll pops the head,
`none` standing for `Pending` and `some v` for `Ready(v)`. An exhausted script
stays pending. -/
def Script (α : Type) : Type := List (Option α)

/-- One poll of a scripted future. -/
def popScript {α : Type} : Script α → Option α × Script α
  | [] => (none, [])
  | h :: t => (h, t)

/-- The `RequestHead`: the code only reads its `uri` (`υ` is the URI type). This
also stands for `RequestHeadType`, whose `as_ref()` yields the head. -/
structure RequestHead (υ : Type) where
  uri : υ

/-- The `ConnectRequest` (src/awc/src/connect.rs:30-33): a full client request or
a tunnel request, each with an optional socket address (`α`). `β` is the body
type. -/
inductive ConnectRequest (υ β α : Type) where
  | Client (head : RequestHead υ) (body : β) (addr : Option α)
  | Tunnel (head : RequestHead υ) (addr : Option α)

/-- The `ClientConnect` as built by `DefaultConnector::call`: the request's URI and
optional address. -/
structure ClientConnect (υ α : Type) where
  uri : υ
  addr : Option α

/-- The `ClientResponse` as far as this file needs it: `ClientResponse::new(head,
payload)` stores both (`ρ` response head, `π` payload). -/
structure ClientResponse (ρ π : Type) where
  head : ρ
  payload : π

/-- The `ClientResponse::new`. -/
def ClientResponse.new {ρ π : Type} (head : ρ) (payload : π) :
    ClientResponse ρ π :=
  ⟨head, payload⟩

/-- The `BoxedSocket`-wrapped framed connection produced by
`framed.into_map_io(|io| BoxedSocket(Box::new(Socket(io))))` (`φ` is the
original framed type). -/
structure BoxedFramed (φ : Type) where
  inner : φ

/-- The `ConnectResponse` (src/awc/src/connect.rs:35-38). -/
inductive ConnectResponse (ρ π φ : Type) where
  | Client (res : ClientResponse ρ π)
  | Tunnel (head : ρ) (framed : BoxedFramed φ)

/-- The `ConnectResponse::into_client_response` (src/awc/src/connect.rs:41-48):
returns the contained `ClientResponse`; the non-`Client` arm panics, modelled
as `none`. -/
def ConnectResponse.into_client_response {ρ π φ : Type} :
    ConnectResponse ρ π φ → Option (ClientResponse ρ π)
  | .Client res => some res
  | _ => none

/-- The `ConnectResponse::into_tunnel_response` (src/awc/src/connect.rs:50-57):
returns the head and framed socket; the non-`Tunnel` arm panics, modelled as
`none`. -/
def ConnectResponse.into_tunnel_response {ρ π φ : Type} :
    ConnectResponse ρ π φ → Option (ρ × BoxedFramed φ)
  | .Tunnel head framed => some (head, framed)
  | _ => none

/-- The `SendRequestError`, restricted to what the file needs: the `From`
conversion of a `ConnectError` (`κ`), or any other send error (`ε`). -/
inductive SendRequestError (κ ε : Type) where
  | Connect (e : κ)
  | Other (e : ε)

/-- A `Connection`: `send_request(head, body)` and
`open_tunnel(head)` return futures, modelled as scripted polls determined by
their arguments. -/
structure Connection (υ β ρ π φ κ ε : Type) where
  send_request : RequestHead υ → β →
    Script (Except (SendRequestError κ ε) (ρ × π))
  open_tunnel : RequestHead υ →
    Script (Except (SendRequestError κ ε) (ρ × φ))

/-- The `ConnectRequestFuture` (src/awc/src/connect.rs:102-120): connecting, then
sending an ordinary request, or opening a tunnel. -/
inductive ConnectRequestFuture (υ β ρ π φ κ ε α : Type) where
  | Connection (fut : Script (Except κ (Connection υ β ρ π φ κ ε)))
      (req : Option (ConnectRequest υ β α))
  | Client (fut : Script (Except (SendRequestError κ ε) (ρ × π)))
  | Tunnel (fut : Script (Except (SendRequestError κ ε) (ρ × φ)))

/-- Output of one poll of `ConnectRequestFuture`: `Pending`, `Ready(..)`, or a
panic (the `req.take().unwrap()` on an exhausted slot). -/
inductive CPoll (ρ π φ κ ε : Type) where
  | pending
  | ready (r : Except (SendRequestError κ ε) (ConnectResponse ρ π φ))
  | panicked

/-- The `Client` arm of `ConnectRequestFuture::poll`
(src/awc/src/connect.rs:153-158). -/
def pollClientF {υ β ρ π φ κ ε α : Type}
    (fut : Script (Except (SendRequestError κ ε) (ρ × π))) :
    CPoll ρ π φ κ ε × ConnectRequestFuture υ β ρ π φ κ ε α :=
  match popScript fut with
  | (none, f') => (.pending, .Client f')
  | (some (.error e), f') => (.ready (.error e), .Client f')
  | (some (.ok (head, payload)), f') =>
    (.ready (.ok (.Client (ClientResponse.new head payload))), .Client f')

/-- The `Tunnel` arm of `ConnectRequestFuture::poll`
(src/awc/src/connect.rs:159-163), including the `into_map_io` boxing. -/
def pollTunnelF {υ β ρ π φ κ ε α : Type}
    (fut : Script (Except (SendRequestError κ ε) (ρ × φ))) :
    CPoll ρ π φ κ ε × ConnectRequestFuture υ β ρ π φ κ ε α :=
  match popScript fut with
  | (none, f') => (.pending, .Tunnel f')
  | (some (.error e), f') => (.ready (.error e), .Tunnel f')
  | (some (.ok (head, framed)), f') =>
    (.ready (.ok (.Tunnel head ⟨framed⟩)), .Tunnel f')

/-- The `ConnectRequestFuture::poll` (src/awc/src/connect.rs:130-165). In the
`Connection` arm, a completed connect transitions to the `Client` or `Tunnel`
state according to the stored request's variant and immediately polls the new
future (the source's tail call `self.poll(cx)`). -/
def pollCRF {υ β ρ π φ κ ε α : Type}
    (s : ConnectRequestFuture υ β ρ π φ κ ε α) :
    CPoll ρ π φ κ ε × ConnectRequestFuture υ β ρ π φ κ ε α :=
  match s with
  | .Connection fut req =>
    match popScript fut with
    | (none, f') => (.pending, .Connection f' req)
    | (some (.error e), f') =>
      (.ready (.error (.Connect e)), .Connection f' req)
    | (some (.ok conn), f') =>
      match req with
      | none => (.panicked, .Connection f' none)
      | some r =>
        match r with
        | .Client head body _ => pollClientF (conn.send_request head body)
        | .Tunnel head _ => pollTunnelF (conn.open_tunnel head)
  | .Client fut => pollClientF fut
  | .Tunnel fut => pollTunnelF fut

/-- Drive `ConnectRequestFuture` for at most `n` polls, stopping at the first
non-`Pending` outcome. -/
def runCRF {υ β ρ π φ κ ε α : Type} :
    Nat → ConnectRequestFuture υ β ρ π φ κ ε α →
    CPoll ρ π φ κ ε × ConnectRequestFuture υ β ρ π φ κ ε α
  | 0, s => (.pending, s)
  | n + 1, s =>
    match pollCRF s with
    | (.pending, s') => runCRF n s'
    | out => out

/-- The `DefaultConnector::call` (src/awc/src/connect.rs:82-99): build the
`ClientConnect` from the request's URI and address, start the connector's
future, and enter the `Connection` state holding the request. The connector
service is modelled as a function from `ClientConnect` to a scripted future. -/
def DefaultConnectorCall {υ β ρ π φ κ ε α : Type}
    (connector : ClientConnect υ α → Script (Except κ (Connection υ β ρ π φ κ ε)))
    (req : ConnectRequest υ β α) : ConnectRequestFuture υ β ρ π φ κ ε α :=
  let fut :=
    match req with
    | .Client head _ addr => connector ⟨head.uri, addr⟩
    | .Tunnel head addr => connector ⟨head.uri, addr⟩
  .Connection fut (some req)

/-- The variant of a request or response. -/
inductive Variant where
  | client
  | tunnel
deriving DecidableEq, Repr

/-- Variant of a `ConnectRequest`. -/
def reqVariant {υ β α : Type} : ConnectRequest υ β α → Variant
  | .Client .. => .client
  | .Tunnel .. => .tunnel

/-- Variant of a `ConnectResponse`. -/
def respVariant {ρ π φ : Type} : ConnectResponse ρ π φ → Variant
  | .Client _ => .client
  | .Tunnel .. => .tunnel

/-- Invariant tying a future state to the variant of the request it serves. -/
def stateVariant {υ β ρ π φ κ ε α : Type} (v : Variant) :
    ConnectRequestFuture υ β ρ π φ κ ε α → Prop
  | .Connection _ (some r) => reqVariant r = v
  | .Connection _ none => True
  | .Client _ => v = .client
  | .Tunnel _ => v = .tunnel

theorem pollClientF_cases {υ β ρ π φ κ ε α : Type}
    (fut : Script (Except (SendRequestError κ ε) (ρ × π))) :
    (∀ (resp : ConnectResponse ρ π φ)
      (s' : ConnectRequestFuture υ β ρ π φ κ ε α),
      pollClientF fut = (.ready (.ok resp), s') →
        respVariant resp = .client) ∧
    (∃ f', (pollClientF (υ := υ) (β := β) (φ := φ) (α := α) fut).2 =
      .Client f') := by
  match fut with
  | [] => exact ⟨fun resp s' h => by simp [pollClientF, popScript] at h, _, rfl⟩
  | none :: t => exact ⟨fun resp s' h => by simp [pollClientF, popScript] at h, _, rfl⟩
  | some (.error e) :: t =>
    exact ⟨fun resp s' h => by simp [pollClientF, popScript] at h, _, rfl⟩
  | some (.ok (h₀, p₀)) :: t =>
    refine ⟨fun resp s' h => ?_, _, rfl⟩
    simp [pollClientF, popScript] at h
    rw [← h.1]
    rfl

theorem pollTunnelF_cases {υ β ρ π φ κ ε α : Type}
    (fut : Script (Except (SendRequestError κ ε) (ρ × φ))) :
    (∀ (resp : ConnectResponse ρ π φ)
      (s' : ConnectRequestFuture υ β ρ π φ κ ε α),
      pollTunnelF fut = (.ready (.ok resp), s') →
        respVariant resp = .tunnel) ∧
    (∃ f', (pollTunnelF (υ := υ) (β := β) (π := π) (α := α) fut).2 =
      .Tunnel f') := by
  match fut with
  | [] => exact ⟨fun resp s' h => by simp [pollTunnelF, popScript] at h, _, rfl⟩
  | none :: t => exact ⟨fun resp s' h => by simp [pollTunnelF, popScript] at h, _, rfl⟩
  | some (.error e) :: t =>
    exact ⟨fun resp s' h => by simp [pollTunnelF, popScript] at h, _, rfl⟩
  | some (.ok (h₀, f₀)) :: t =>
    refine ⟨fun resp s' h => ?_, _, rfl⟩
    simp [pollTunnelF, popScript] at h
    rw [← h.1]
    rfl

theorem pollCRF_step {υ β ρ π φ κ ε α : Type} (v : Variant)
    (s : ConnectRequestFuture υ β ρ π φ κ ε α) (hs : stateVariant v s) :
    (∀ resp s', pollCRF s = (.ready (.ok resp), s') → respVariant resp = v) ∧
    (∀ s', pollCRF s = (.pending, s') → stateVariant v s') := by
  match s with
  | .Client fut =>
    have hc := pollClientF_cases (υ := υ) (β := β) (φ := φ) (α := α) fut
    refine ⟨fun resp s' h => ?_, fun s' h => ?_⟩
    · rw [hc.1 resp s' h]; exact hs.symm
    · obtain ⟨f', hf⟩ := hc.2
      have hss : s' = (pollCRF (.Client fut)).2 := by rw [h]
      rw [hss, show pollCRF (.Client fut) = pollClientF fut from rfl, hf]
      exact hs
  | .Tunnel fut =>
    have hc := pollTunnelF_cases (υ := υ) (β := β) (π := π) (α := α) fut
    refine ⟨fun resp s' h => ?_, fun s' h => ?_⟩
    · rw [hc.1 resp s' h]; exact hs.symm
    · obtain ⟨f', hf⟩ := hc.2
      have hss : s' = (pollCRF (.Tunnel fut)).2 := by rw [h]
      rw [hss, show pollCRF (.Tunnel fut) = pollTunnelF fut from rfl, hf]
      exact hs
  | .Connection fut req =>
    match hpop : popScript fut with
    | (none, f') =>
      refine ⟨fun resp s' h => ?_, fun s' h => ?_⟩
      · simp [pollCRF, hpop] at h
      · simp [pollCRF, hpop] at h
        rw [← h]
        match req with
        | some r => exact hs
        | none => trivial
    | (some (.error e), f') =>
      refine ⟨fun resp s' h => ?_, fun s' h => ?_⟩ <;> simp [pollCRF, hpop] at h
    | (some (.ok conn), f') =>
      match req with
      | none =>
        refine ⟨fun resp s' h => ?_, fun s' h => ?_⟩ <;> simp [pollCRF, hpop] at h
      | some (.Client head body a) =>
        have hv : v = .client := hs.symm
        have hc := pollClientF_cases (υ := υ) (β := β) (φ := φ) (α := α)
          (conn.send_request head body)
        refine ⟨fun resp s' h => ?_, fun s' h => ?_⟩
        · simp only [pollCRF, hpop] at h
          rw [hc.1 resp s' h, hv]
        · simp only [pollCRF, hpop] at h
          obtain ⟨f₂, hf⟩ := hc.2
          have hss : s' = (pollClientF (conn.send_request head body)).2 := by
            rw [h]
          rw [hss, hf]
          exact hv
      | some (.Tunnel head a) =>
        have hv : v = .tunnel := hs.symm
        have hc := pollTunnelF_cases (υ := υ) (β := β) (π := π) (α := α)
          (conn.open_tunnel head)
        refine ⟨fun resp s' h => ?_, fun s' h => ?_⟩
        · simp only [pollCRF, hpop] at h
          rw [hc.1 resp s' h, hv]
        · simp only [pollCRF, hpop] at h
          obtain ⟨f₂, hf⟩ := hc.2
          have hss : s' = (pollTunnelF (conn.open_tunnel head)).2 := by
            rw [h]
          rw [hss, hf]
          exact hv

theorem runCRF_variant {υ β ρ π φ κ ε α : Type} (v : Variant) :
    ∀ (n : Nat) (s : ConnectRequestFuture υ β ρ π φ κ ε α)
      (resp : ConnectResponse ρ π φ) (s' : ConnectRequestFuture υ β ρ π φ κ ε α),
      stateVariant v s → runCRF n s = (.ready (.ok resp), s') →
      respVariant resp = v := by
  intro n
  induction n with
  | zero => intro s resp s' _ h; simp [runCRF] at h
  | succ n ih =>
    intro s resp s' hs h
    match hp : pollCRF s with
    | (.pending, s₁) =>
      have hrun : runCRF (n + 1) s = runCRF n s₁ := by
        simp [runCRF, hp]
      rw [hrun] at h
      exact ih s₁ resp s' ((pollCRF_step v s hs).2 s₁ hp) h
    | (.ready r, s₁) =>
      have hrun : runCRF (n + 1) s = (.ready r, s₁) := by
        simp [runCRF, hp]
      rw [hrun] at h
      have hr : CPoll.ready r = CPoll.ready (.ok resp) ∧ s₁ = s' := by
        exact ⟨congrArg Prod.fst h, congrArg Prod.snd h⟩
      have : r = .ok resp := by injection hr.1
      rw [this] at hp
      exact (pollCRF_step v s hs).1 resp s₁ hp
    | (.panicked, s₁) =>
      have hrun : runCRF (n + 1) s = (.panicked, s₁) := by
        simp [runCRF, hp]
      rw [hrun] at h
      exact absurd (congrArg Prod.fst h) (by simp)

/-- A sample connection used to instantiate witnesses. -/
def sampleConn : Connection Nat Nat Nat Nat Nat Nat Nat :=
  { send_request := fun _ _ => [some (.ok (5, 6))]
    open_tunnel := fun _ => [some (.ok (7, 8))] }

end Awc

/-- C8: whenever the future returned by `DefaultConnector::call` completes
with `Ok`, the `ConnectResponse` variant matches the `ConnectRequest` variant:
`Client` requests yield `ConnectResponse::Client` and `Tunnel` requests yield
`ConnectResponse::Tunnel`. -/
theorem connect_response_variant_matches_request {υ β ρ π φ κ ε α : Type}
    (connector : Awc.ClientConnect υ α →
      Awc.Script (Except κ (Awc.Connection υ β ρ π φ κ ε)))
    (req : Awc.ConnectRequest υ β α) (n : Nat)
    (resp : Awc.ConnectResponse ρ π φ)
    (s' : Awc.ConnectRequestFuture υ β ρ π φ κ ε α)
    (h : Awc.runCRF n (Awc.DefaultConnectorCall connector req) =
      (.ready (.ok resp), s')) :
    Awc.respVariant resp = Awc.reqVariant req := by
  refine Awc.runCRF_variant (Awc.reqVariant req) n _ resp s' ?_ h
  match req with
  | .Client head body a => exact rfl
  | .Tunnel head a => exact rfl

/-- C8 witness: a concrete `Client` request whose connect and send futures
complete on their first polls yields `ConnectResponse::Client`. -/
theorem connect_response_variant_matches_request_witness :
    Awc.respVariant
        (Awc.ConnectResponse.Client (φ := Nat) (Awc.ClientResponse.new 5 6)) =
      Awc.reqVariant
        (Awc.ConnectRequest.Client (υ := Nat) (β := Nat) (α := Nat) ⟨0⟩ 0 none) :=
  connect_response_variant_matches_request
    (fun _ => [some (.ok Awc.sampleConn)])
    (Awc.ConnectRequest.Client ⟨0⟩ 0 none) 1
    (Awc.ConnectResponse.Client (Awc.ClientResponse.new 5 6))
    (Awc.ConnectRequestFuture.Client []) rfl

/-- C9: `into_client_response` yields the contained response exactly on the
`Client` variant and panics (modelled `none`) on `Tunnel`; symmetrically
`into_tunnel_response` yields the head and framed socket exactly on `Tunnel`
and panics on `Client`. -/
theorem into_responses_defined_only_on_matching_variant {ρ π φ : Type}
    (res : Awc.ClientResponse ρ π) (head : ρ) (framed : Awc.BoxedFramed φ) :
    (Awc.ConnectResponse.Client (φ := φ) res).into_client_response = some res ∧
    (Awc.ConnectResponse.Tunnel (π := π) head framed).into_client_response = none ∧
    (Awc.ConnectResponse.Tunnel (π := π) head framed).into_tunnel_response =
      some (head, framed) ∧
    (Awc.ConnectResponse.Client (φ := φ) res).into_tunnel_response = none :=
  ⟨rfl, rfl, rfl, rfl⟩

namespace HeaderMacros

/-- A raw header value. `HeaderValue::to_str` belongs to the external `http`
crate, so its result is carried directly: `toStr? = some s` when the bytes
decode to the string `s`, `none` when `to_str()` errors. -/
structure HeaderValue where
  toStr? : Option String

/-- The header type generated by the `{Any / (item)+}` form of
`common_header!`: any value matches, or only the listed items do. -/
inductive AnyOrItems (α : Type) where
  | Any
  | Items (items : List α)
deriving DecidableEq, Repr

/-- The `Header::parse` for the `{Any / (item)+}` form
(src/src/http/header/macros.rs:254-267). `values` is the list stored under the
header's name, so `headers().get(name)` is its first element and
`headers().get_all(name)` is the whole list; `from_comma_delimited` lives
outside the provided sources and is passed in as `fcd`. -/
def anyFormParse {α ω : Type} (fcd : List HeaderValue → Except ω (List α))
    (values : List HeaderValue) : Except ω (AnyOrItems α) :=
  let is_any := (values.head?.bind (fun hdr => hdr.toStr?)).map
    (fun hdr => hdr.trim == "*")
  if is_any = some true then
    .ok .Any
  else
    (fcd values).map .Items

/-- The first value under the header's name decodes and trims to `"*"`. -/
def firstIsStar (values : List HeaderValue) : Prop :=
  ∃ s, values.head?.bind (fun hdr => hdr.toStr?) = some s ∧ s.trim = "*"

instance (values : List HeaderValue) : Decidable (firstIsStar values) := by
  unfold firstIsStar
  match values.head?.bind (fun hdr => hdr.toStr?) with
  | none => exact .isFalse (by simp)
  | some s => exact decidable_of_iff (s.trim = "*") (by simp)

end HeaderMacros

/-- C10: the `{Any / (item)+}` form of `common_header!` parses to `Any` iff
the first value under the header's name is decodable and trims to `"*"`
(later values are not consulted for this test, so a first value of `"*"`
yields `Any` even when more specific values follow); in every other case all
values of the header are comma-delimited-parsed into `Items` — a `"*"`
appearing only in a later value still yields `Items`. -/
theorem common_header_any_form_parse {α ω : Type}
    (fcd : List HeaderMacros.HeaderValue → Except ω (List α))
    (values : List HeaderMacros.HeaderValue) :
    (HeaderMacros.anyFormParse fcd values = .ok .Any ↔
      HeaderMacros.firstIsStar values) ∧
    (¬ HeaderMacros.firstIsStar values →
      HeaderMacros.anyFormParse fcd values = (fcd values).map .Items) := by
  constructor
  · constructor
    · intro h
      by_contra hns
      unfold HeaderMacros.anyFormParse at h
      rw [if_neg ?_] at h
      · match hfcd : fcd values with
        | .ok l => rw [hfcd] at h; simp [Except.map] at h
        | .error e => rw [hfcd] at h; simp [Except.map] at h
      · intro hsome
        apply hns
        match ho : values.head?.bind (fun hdr => hdr.toStr?) with
        | none => rw [ho] at hsome; simp [Option.map] at hsome
        | some s =>
          rw [ho] at hsome
          simp [Option.map] at hsome
          exact ⟨s, ho, hsome⟩
    · intro hstar
      obtain ⟨s, ho, htrim⟩ := hstar
      unfold HeaderMacros.anyFormParse
      rw [if_pos]
      rw [ho]
      simp [Option.map, htrim]
  · intro hns
    unfold HeaderMacros.anyFormParse
    rw [if_neg]
    intro hsome
    apply hns
    match ho : values.head?.bind (fun hdr => hdr.toStr?) with
    | none => rw [ho] at hsome; simp [Option.map] at hsome
    | some s =>
      rw [ho] at hsome
      simp [Option.map] at hsome
      exact ⟨s, ho, hsome⟩

/-- C10 witness: with an undecodable first value and a later `"*"`, parsing
yields `Items` (of whatever `from_comma_delimited` returns); the `"*"` in the
later value does not produce `Any`. -/
theorem common_header_any_form_parse_witness :
    HeaderMacros.anyFormParse
        (fun vs => (Except.ok [vs.length] : Except Unit (List Nat)))
        [⟨none⟩, ⟨some "*"⟩] =
      .ok (.Items [2]) := by
  have h := (common_header_any_form_parse
    (fun vs => (Except.ok [vs.length] : Except Unit (List Nat)))
    [⟨none⟩, ⟨some "*"⟩]).2 (by simp [HeaderMacros.firstIsStar])
  rw [h]
  rfl
